import Mathlib

/-!
Shallow embedding of the entity lifecycle manager of
`webots_ros2_driver/ros2_supervisor.py` (class `Ros2Supervisor`).

The simulator's scene graph (the `children` field of the root node, reached
through `self.__insertion_node_place`) is modelled as a list of `SceneNode`s;
a node's optional `name` field models `node.getField('name')`, which may be
absent.  The registry `self.__node_list` is a Python list of strings and is
modelled as `List String`.  External effects are passed in explicitly:
the outcome of `importMFNodeFromString` is the list of nodes it materialises
(possibly empty when the simulator silently rejects the fragment), and the
`urdf2webots` converter is an oracle `ConvCall → Except Unit String` whose
`error` case models a raised Python exception.

Each service callback returns `Except SupervisorState CbResult`: `ok` is a
completed callback (new state, `response.success`, the log lines emitted, the
converter calls issued and the strings passed to `importMFNodeFromString`),
while `error s` models a Python exception escaping the callback with the
state `s` it had reached at the raise point.
-/

/-- A node of the scene graph: `nameFld` models `node.getField('name')`
(`none` when the field is absent); `uid` distinguishes physical nodes. -/
structure SceneNode where
  nameFld : Option String
  uid : Nat
deriving DecidableEq, Repr

/-- The mutable state of `Ros2Supervisor`: `nodeList` is `self.__node_list`,
`sceneNodes` the children of the root node (`self.__insertion_node_place`). -/
structure SupervisorState where
  nodeList : List String
  sceneNodes : List SceneNode
deriving DecidableEq, Repr

/-- A call issued to the urdf2webots converter, with all arguments the source
passes (`convertUrdfFile` resp. `convertUrdfContent`). -/
inductive ConvCall where
  | file (path robotName initTranslation initRotation : String)
      (normal boxCollision : Bool) (initPos : Option String)
  | content (desc robotName initTranslation initRotation : String)
      (normal boxCollision : Bool) (initPos : Option String)
      (relPathPre : Option String)
deriving DecidableEq, Repr

/-- Outcome of a completed callback: final state, `response.success`, the log
lines emitted, the converter calls issued, the strings passed to
`importMFNodeFromString`, and the name recorded on a successful spawn. -/
structure CbResult where
  state : SupervisorState
  success : Bool
  logs : List String
  convCalls : List ConvCall
  imports : List String
  spawnedName : Option String
deriving DecidableEq, Repr

/-- The `request.robot` message of the `spawn_urdf_robot` service.  All string
fields default to the empty string in ROS, which Python treats as falsy;
`relPathPre` is the message's relative path field used by the content path. -/
structure UrdfRobot where
  name : String
  urdfPath : String
  robotDescription : String
  relPathPre : String
  translation : String
  rotation : String
  normal : Bool
  boxCollision : Bool
  initPos : String
deriving DecidableEq, Repr

/-- Log text of line 76 of the source. -/
def logUnnamedRobot : String :=
  "Ros2Supervisor cannot import an unnamed URDF robot. Please specifiy it with name=\"\" in the URDFSpawner object."

/-- Log text of line 80 of the source. -/
def logNameUsed (n : String) : String :=
  "The URDF robot name \"" ++ n ++ "\" is already used by another robot! Please specifiy a unique name."

/-- Log text of line 101 of the source. -/
def logNoSource : String :=
  "Ros2Supervisor can not import a URDF file without a specified \"urdf_path\" or \"robot_description\" in the URDFSpawner object."

/-- Log text of line 105 of the source. -/
def logImportedRobot (n : String) : String :=
  "Ros2Supervisor has imported the URDF robot named \"" ++ n ++ "\"."

/-- Log text of line 114 of the source. -/
def logEmptyString : String :=
  "Ros2Supervisor cannot import an empty string."

/-- Log text of line 123 of the source. -/
def logUnnamedNode : String :=
  "Ros2Supervisor cannot import an unnamed node."

/-- Log text of line 128 of the source. -/
def logDuplicateNode (n : String) : String :=
  "Ros2Supervisor has found a duplicate node in the world named \"" ++ n ++ "\". Please specifiy a unique name."

/-- Log text of line 146 of the source. -/
def logCouldNotImport (n : String) : String :=
  "Ros2Supervisor could not import the node named \"" ++ n ++ "\"."

/-- Log text of line 150 of the source. -/
def logImportedNode (n : String) : String :=
  "Ros2Supervisor has imported the node named \"" ++ n ++ "\"."

/-- Log text of line 171 of the source. -/
def logRemovedNode (n : String) : String :=
  "Ros2Supervisor has removed the node named \"" ++ n ++ "\"."

/-- Log text of lines 173-174 of the source. -/
def logNotFound (n : String) : String :=
  "Ros2Supervisor wanted to remove the node named \"" ++ n ++ "\" but this node has not been found in the simulation world."

/-- Python `list.remove`: drop the first occurrence of `t`. -/
def listRemoveFirst : List String → String → List String
  | [], _ => []
  | x :: xs, t => if x = t then xs else x :: listRemoveFirst xs t

/-- Condition `node_name_field and node_name_field.getSFString() == name`:
a node matches the target iff it has a `name` field equal to it. -/
def nodeMatches (n : SceneNode) (target : String) : Bool :=
  match n.nameFld with
  | some s => s = target
  | none => false

/-- Character class `[a-z0-9_]` of the regular expression at line 118. -/
def isNameChar (c : Char) : Bool :=
  ('a' ≤ c && c ≤ 'z') || ('0' ≤ c && c ≤ '9') || c = '_'

/-- After `name "` has been matched, consume a run of `[a-z0-9_]` characters;
the match succeeds iff the run is immediately closed by `"` (greedy matching
with backtracking degenerates to this because the class excludes `"`).
Returns the run, i.e. the extracted identifier. -/
def takeNameRun : List Char → Option (List Char)
  | [] => none
  | c :: cs =>
    if c = '"' then some []
    else if isNameChar c then (takeNameRun cs).map (fun r => c :: r)
    else none

/-- Try the pattern `name "[a-z0-9_]*"` at the head of `s`; on success return
the identifier between the quotes. -/
def matchNameAt (s : List Char) : Option (List Char) :=
  match s with
  | 'n' :: 'a' :: 'm' :: 'e' :: ' ' :: '"' :: rest => takeNameRun rest
  | _ => none

/-- Model of `re.search('name "[a-z0-9_]*"', s)`: leftmost match, tried
at every start position in order.  Returns the extracted identifier; `none`
models `re.search` returning Python `None`.  The source then strips the fixed
wrapper from the matched group `name "<run>"` with
`.replace('name ', '').replace('"', '')`; since the run holds neither spaces
nor quotes those two calls return exactly the run, which we return directly. -/
def findNameMatch : List Char → Option (List Char)
  | [] => none
  | c :: cs =>
    match matchNameAt (c :: cs) with
    | some r => some r
    | none => findNameMatch cs

/-- The pattern match attempted at start position `i` (for stating the
leftmost-match property of `findNameMatch`). -/
def matchAtPos (s : List Char) (i : Nat) : Option (List Char) :=
  matchNameAt (s.drop i)

/-- Callback `__spawn_node_from_string_callback` (lines 111-152).  `ins` is the list of
nodes the `importMFNodeFromString` call materialises in the scene graph
(empty when the simulator silently rejects the fragment).  `error st` models
the `AttributeError` raised at line 119 when the regular expression finds no
match (`name_match` is `None`). -/
def spawnNodeFromString (st : SupervisorState) (data : String)
    (ins : List SceneNode) : Except SupervisorState CbResult :=
  if data = "" then
    .ok ⟨st, false, [logEmptyString], [], [], none⟩
  else
    match findNameMatch data.toList with
    | none => .error st
    | some run =>
      if String.mk run = "" then
        .ok ⟨st, false, [logUnnamedNode], [], [], none⟩
      else if String.mk run ∈ st.nodeList then
        .ok ⟨st, false, [logDuplicateNode (String.mk run)], [], [], none⟩
      else if (st.sceneNodes ++ ins).any
          (fun n => nodeMatches n (String.mk run)) then
        .ok ⟨⟨st.nodeList ++ [String.mk run], st.sceneNodes ++ ins⟩, true,
             [logImportedNode (String.mk run)], [], [data],
             some (String.mk run)⟩
      else
        .ok ⟨⟨listRemoveFirst (st.nodeList ++ [String.mk run]) (String.mk run),
              st.sceneNodes ++ ins⟩, false,
             [logCouldNotImport (String.mk run)], [], [data], none⟩

/-- Line 84: `robot.translation if robot.translation else '0 0 0'`
(the empty string is the only falsy string). -/
def defTranslation (robot : UrdfRobot) : String :=
  if robot.translation ≠ "" then robot.translation else "0 0 0"

/-- Line 85: `robot.rotation if robot.rotation else '0 0 1 0'`. -/
def defRotation (robot : UrdfRobot) : String :=
  if robot.rotation ≠ "" then robot.rotation else "0 0 1 0"

/-- Line 86: `robot.normal if robot.normal else False`. -/
def defNormal (robot : UrdfRobot) : Bool :=
  if robot.normal then robot.normal else false

/-- Line 87: `robot.box_collision if robot.box_collision else False`. -/
def defBoxCollision (robot : UrdfRobot) : Bool :=
  if robot.boxCollision then robot.boxCollision else false

/-- Line 88: `robot.init_pos if robot.init_pos else None`. -/
def defInitPos (robot : UrdfRobot) : Option String :=
  if robot.initPos ≠ "" then some robot.initPos else none

/-- Line 96: the relative path option passed to `convertUrdfContent`. -/
def defRelPathPre (robot : UrdfRobot) : Option String :=
  if robot.relPathPre ≠ "" then some robot.relPathPre else none

/-- The `convertUrdfFile` call of lines 92-94 with all its arguments. -/
def fileConvCall (robot : UrdfRobot) : ConvCall :=
  .file robot.urdfPath robot.name (defTranslation robot) (defRotation robot)
    (defNormal robot) (defBoxCollision robot) (defInitPos robot)

/-- The `convertUrdfContent` call of lines 97-99 with all its arguments. -/
def contentConvCall (robot : UrdfRobot) : ConvCall :=
  .content robot.robotDescription robot.name (defTranslation robot)
    (defRotation robot) (defNormal robot) (defBoxCollision robot)
    (defInitPos robot) (defRelPathPre robot)

/-- Callback `__spawn_urdf_robot_callback` (lines 70-108).  `conv` is the urdf2webots
converter oracle (its `error` case models a raised exception, which the
callback does not catch); `ins` is the list of nodes materialised by the
`importMFNodeFromString` call.  Line 73's
`robot_name = robot.name if robot.name else ''` is the identity on strings
(the falsy case is exactly the empty string), so `robot.name` is used
directly. -/
def spawnUrdfRobot (st : SupervisorState) (robot : UrdfRobot)
    (conv : ConvCall → Except Unit String)
    (ins : List SceneNode) : Except SupervisorState CbResult :=
  if robot.name = "" then
    .ok ⟨st, false, [logUnnamedRobot], [], [], none⟩
  else if robot.name ∈ st.nodeList then
    .ok ⟨st, false, [logNameUsed robot.name], [], [], none⟩
  else if robot.urdfPath ≠ "" then
    match conv (fileConvCall robot) with
    | .error _ => .error st
    | .ok robotString =>
      .ok ⟨⟨st.nodeList ++ [robot.name], st.sceneNodes ++ ins⟩, true,
           [logImportedRobot robot.name], [fileConvCall robot], [robotString],
           some robot.name⟩
  else if robot.robotDescription ≠ "" then
    match conv (contentConvCall robot) with
    | .error _ => .error st
    | .ok robotString =>
      .ok ⟨⟨st.nodeList ++ [robot.name], st.sceneNodes ++ ins⟩, true,
           [logImportedRobot robot.name], [contentConvCall robot],
           [robotString], some robot.name⟩
  else
    .ok ⟨st, false, [logNoSource], [], [], none⟩

/-- The scan loop of `__remove_imported_node_callback` (lines 159-166).
The loop variable assignment `node = self.__insertion_node_place.getMFNode(id_node)`
overwrites the initial `None`, so after a full traversal without a match the
variable holds the LAST scanned node.  Result: index of the first matching
node, else index of the last node when the list is non-empty, else `none`. -/
def removeScanIdx : List SceneNode → String → Option Nat
  | [], _ => none
  | n :: ns, target =>
    if nodeMatches n target then some 0
    else
      match removeScanIdx ns target with
      | some i => some (i + 1)
      | none => some 0

/-- Callback `__remove_imported_node_callback` (lines 155-174).  Returns the new state
and the log lines emitted.  When the name is absent from `self.__node_list`
the whole body is skipped (there is no `else` branch), so no log is emitted. -/
def removeImportedNode (st : SupervisorState) (name : String) :
    SupervisorState × List String :=
  if name ∈ st.nodeList then
    match removeScanIdx st.sceneNodes name with
    | some i =>
      (⟨listRemoveFirst st.nodeList name, st.sceneNodes.eraseIdx i⟩,
       [logRemovedNode name])
    | none =>
      (st, [logNotFound name])
  else
    (st, [])

/-- A spawn request of either path, bundled with the external-world behaviour
it will meet: the converter oracle (robot-description path) and the nodes the
`importMFNodeFromString` call materialises. -/
inductive SpawnReq where
  | urdf (robot : UrdfRobot) (conv : ConvCall → Except Unit String)
      (ins : List SceneNode)
  | fragment (data : String) (ins : List SceneNode)

/-- Dispatch one spawn request; the first component of the outcome is the
successfully spawned name (`none` on any rejection). -/
def reqStep (st : SupervisorState) :
    SpawnReq → Except SupervisorState (Option String × SupervisorState)
  | .urdf robot conv ins =>
    (spawnUrdfRobot st robot conv ins).map (fun cb => (cb.spawnedName, cb.state))
  | .fragment data ins =>
    (spawnNodeFromString st data ins).map (fun cb => (cb.spawnedName, cb.state))

/-- Process a sequence of spawn requests strictly in arrival order, as the
single-threaded executor does; an uncaught exception stops the run.  Returns
the per-request outcomes. -/
def runReqs : SupervisorState → List SpawnReq → List (Option String)
  | _, [] => []
  | st, r :: rs =>
    match reqStep st r with
    | .error _ => [none]
    | .ok (o, st') => o :: runReqs st' rs

/-- A concrete robot-description request using the file path. -/
def robotR1 : UrdfRobot :=
  ⟨"r1", "/tmp/r1.urdf", "", "", "", "", false, false, ""⟩

/-- A converter oracle that always raises. -/
def convFailAll : ConvCall → Except Unit String := fun _ => .error ()

/-- A converter oracle that always returns the same fragment string. -/
def convOkConst : ConvCall → Except Unit String := fun _ => .ok "WBFRAG"

/-- A raw fragment whose first `name "<id>"` occurrence belongs to a nested
node (`inner_part`); the top-level node's own name (`outer_robot`) occurs
only later in the text. -/
def nestedFragment : String :=
  "Robot \x7b children [ Solid \x7b name \"inner_part\" \x7d ] name \"outer_robot\" \x7d"

/-- Removing the name just appended restores the original registry exactly,
provided the name was not already present. -/
theorem listRemoveFirst_append_self (l : List String) (n : String) (h : n ∉ l) :
    listRemoveFirst (l ++ [n]) n = l := by
  induction l with
  | nil => simp [listRemoveFirst]
  | cons x xs ih =>
    have hx : ¬ x = n := fun hx => h (by simp [hx])
    have hn : n ∉ xs := fun hm => h (List.mem_cons_of_mem _ hm)
    show listRemoveFirst (x :: (xs ++ [n])) n = x :: xs
    rw [listRemoveFirst, if_neg hx, ih hn]

/-- On a duplicate-free registry, `list.remove` eliminates the name. -/
theorem not_mem_listRemoveFirst (l : List String) (n : String) (h : l.Nodup) :
    n ∉ listRemoveFirst l n := by
  induction l with
  | nil => simp [listRemoveFirst]
  | cons x xs ih =>
    simp only [listRemoveFirst]
    by_cases hx : x = n
    · rw [if_pos hx]
      subst hx
      exact (List.nodup_cons.mp h).1
    · rw [if_neg hx]
      intro hmem
      rcases List.mem_cons.mp hmem with h1 | h2
      · exact hx h1.symm
      · exact ih (List.nodup_cons.mp h).2 h2

/-- When a first match exists at index `i`, the remove-callback scan stops
there, exactly as the `break` in the source loop. -/
theorem removeScanIdx_eq_first (nodes : List SceneNode) (t : String) (i : Nat)
    (hi : i < nodes.length)
    (hm : nodeMatches (nodes.getD i ⟨none, 0⟩) t = true)
    (hf : ∀ j, j < i → nodeMatches (nodes.getD j ⟨none, 0⟩) t = false) :
    removeScanIdx nodes t = some i := by
  induction nodes generalizing i with
  | nil => simp at hi
  | cons n ns ih =>
    cases i with
    | zero =>
      simp only [List.getD_cons_zero] at hm
      simp [removeScanIdx, hm]
    | succ k =>
      have h0 : nodeMatches n t = false := by
        have := hf 0 (Nat.succ_pos k)
        simpa using this
      have hrec : removeScanIdx ns t = some k := by
        apply ih
        · simpa using hi
        · simpa using hm
        · intro j hj
          have := hf (j + 1) (Nat.succ_lt_succ hj)
          simpa using this
      simp [removeScanIdx, h0, hrec]

/-- Case analysis of a completed raw-fragment spawn: either it failed and the
registry is back to its initial value, or it succeeded and appended exactly
its (previously unused) extracted name. -/
theorem spawnNodeFromString_cases (st : SupervisorState) (data : String)
    (ins : List SceneNode) (cb : CbResult)
    (h : spawnNodeFromString st data ins = .ok cb) :
    (cb.spawnedName = none ∧ cb.success = false ∧
      cb.state.nodeList = st.nodeList) ∨
    (∃ n, cb.spawnedName = some n ∧ cb.success = true ∧ n ∉ st.nodeList ∧
      cb.state.nodeList = st.nodeList ++ [n]) := by
  unfold spawnNodeFromString at h
  split at h
  · cases h
    left
    exact ⟨rfl, rfl, rfl⟩
  · split at h
    · cases h
    · rename_i run heq
      split at h
      · cases h
        left
        exact ⟨rfl, rfl, rfl⟩
      · split at h
        · cases h
          left
          exact ⟨rfl, rfl, rfl⟩
        · rename_i hnomem
          split at h
          · cases h
            right
            exact ⟨_, rfl, rfl, hnomem, rfl⟩
          · cases h
            left
            exact ⟨rfl, rfl, listRemoveFirst_append_self _ _ hnomem⟩

/-- Case analysis of a completed robot-description spawn: either it was
rejected with the state untouched, or it succeeded and appended exactly its
(previously unused) requested name. -/
theorem spawnUrdfRobot_cases (st : SupervisorState) (robot : UrdfRobot)
    (conv : ConvCall → Except Unit String) (ins : List SceneNode)
    (cb : CbResult) (h : spawnUrdfRobot st robot conv ins = .ok cb) :
    (cb.spawnedName = none ∧ cb.success = false ∧
      cb.state.nodeList = st.nodeList) ∨
    (∃ n, cb.spawnedName = some n ∧ cb.success = true ∧ n ∉ st.nodeList ∧
      cb.state.nodeList = st.nodeList ++ [n]) := by
  unfold spawnUrdfRobot at h
  split at h
  · cases h
    left
    exact ⟨rfl, rfl, rfl⟩
  · split at h
    · cases h
      left
      exact ⟨rfl, rfl, rfl⟩
    · rename_i hnomem
      split at h
      · split at h
        · cases h
        · cases h
          right
          exact ⟨_, rfl, rfl, hnomem, rfl⟩
      · split at h
        · split at h
          · cases h
          · cases h
            right
            exact ⟨_, rfl, rfl, hnomem, rfl⟩
        · cases h
          left
          exact ⟨rfl, rfl, rfl⟩

/-- A completed spawn step either spawned nothing and left the registry as it
was, or spawned exactly one previously unused name, appending it. -/
theorem reqStep_cases (st : SupervisorState) (r : SpawnReq) (o : Option String)
    (st' : SupervisorState) (h : reqStep st r = .ok (o, st')) :
    (o = none ∧ st'.nodeList = st.nodeList) ∨
    (∃ n, o = some n ∧ n ∉ st.nodeList ∧ st'.nodeList = st.nodeList ++ [n]) := by
  cases r with
  | urdf robot conv ins =>
    simp only [reqStep] at h
    cases hcb : spawnUrdfRobot st robot conv ins with
    | error s =>
      rw [hcb] at h
      cases h
    | ok cb =>
      rw [hcb] at h
      injection h with h'
      obtain ⟨ho, hst⟩ := Prod.mk.injEq .. |>.mp h'
      subst ho
      subst hst
      rcases spawnUrdfRobot_cases st robot conv ins cb hcb with
        ⟨h1, _, h3⟩ | ⟨n, h1, _, h3, h4⟩
      · exact Or.inl ⟨h1, h3⟩
      · exact Or.inr ⟨n, h1, h3, h4⟩
  | fragment data ins =>
    simp only [reqStep] at h
    cases hcb : spawnNodeFromString st data ins with
    | error s =>
      rw [hcb] at h
      cases h
    | ok cb =>
      rw [hcb] at h
      injection h with h'
      obtain ⟨ho, hst⟩ := Prod.mk.injEq .. |>.mp h'
      subst ho
      subst hst
      rcases spawnNodeFromString_cases st data ins cb hcb with
        ⟨h1, _, h3⟩ | ⟨n, h1, _, h3, h4⟩
      · exact Or.inl ⟨h1, h3⟩
      · exact Or.inr ⟨n, h1, h3, h4⟩

/-- No spawn step ever drops a name that was already in the registry. -/
theorem reqStep_preserves_mem (st : SupervisorState) (r : SpawnReq)
    (o : Option String) (st' : SupervisorState) (n : String)
    (h : reqStep st r = .ok (o, st')) (hn : n ∈ st.nodeList) :
    n ∈ st'.nodeList := by
  rcases reqStep_cases st r o st' h with ⟨_, h3⟩ | ⟨m, _, _, h4⟩
  · rw [h3]
    exact hn
  · rw [h4]
    exact List.mem_append_left _ hn

/-- A name already owned by the registry is never spawned again by any later
request of the run. -/
theorem runReqs_no_spawn_of_mem (reqs : List SpawnReq) (st : SupervisorState)
    (n : String) (hn : n ∈ st.nodeList) : some n ∉ runReqs st reqs := by
  induction reqs generalizing st with
  | nil => simp [runReqs]
  | cons r rs ih =>
    unfold runReqs
    split
    · simp
    · rename_i o st' hstep
      intro hmem
      rcases List.mem_cons.mp hmem with h1 | h2
      · rcases reqStep_cases st r o st' hstep with ⟨h1', _⟩ | ⟨m, h1', h3, _⟩
        · rw [h1'] at h1
          cases h1
        · rw [h1'] at h1
          cases h1
          exact h3 hn
      · exact ih st' (reqStep_preserves_mem st r o st' n hstep hn) h2

/-- Across any sequence of spawn requests, the successfully spawned names are
pairwise distinct. -/
theorem runReqs_successes_nodup (st : SupervisorState) (reqs : List SpawnReq) :
    ((runReqs st reqs).filterMap id).Nodup := by
  induction reqs generalizing st with
  | nil => simp [runReqs]
  | cons r rs ih =>
    unfold runReqs
    split
    · simp
    · rename_i o st' hstep
      rcases reqStep_cases st r o st' hstep with ⟨h1, _⟩ | ⟨m, h1, h3, h4⟩
      · subst h1
        simpa using ih st'
      · subst h1
        refine List.nodup_cons.mpr ⟨?_, ih st'⟩
        intro hmem
        have hmem' : some m ∈ runReqs st' rs := by
          rcases List.mem_filterMap.mp hmem with ⟨a, ha, hid⟩
          rwa [show a = some m from hid] at ha
        have : m ∈ st'.nodeList := by
          rw [h4]
          exact List.mem_append_right _ (List.mem_singleton.mpr rfl)
        exact runReqs_no_spawn_of_mem rs st' m this hmem'

/-- The search returns the match at the least start
position: a position matches and every earlier position does not. -/
theorem findNameMatch_iff_leftmost (s r : List Char) :
    findNameMatch s = some r ↔
      ∃ i, matchAtPos s i = some r ∧ ∀ j, j < i → matchAtPos s j = none := by
  induction s with
  | nil => simp [findNameMatch, matchAtPos, matchNameAt]
  | cons c cs ih =>
    constructor
    · intro h
      rw [findNameMatch] at h
      cases hm : matchNameAt (c :: cs) with
      | some r2 =>
        rw [hm] at h
        refine ⟨0, ?_, fun j hj => absurd hj (Nat.not_lt_zero j)⟩
        simpa [matchAtPos] using hm.trans h
      | none =>
        rw [hm] at h
        rcases ih.mp h with ⟨i, h1, h2⟩
        refine ⟨i + 1, by simpa [matchAtPos] using h1, ?_⟩
        intro j hj
        cases j with
        | zero => simpa [matchAtPos] using hm
        | succ k =>
          have := h2 k (Nat.lt_of_succ_lt_succ hj)
          simpa [matchAtPos] using this
    · rintro ⟨i, h1, h2⟩
      cases i with
      | zero =>
        have hm : matchNameAt (c :: cs) = some r := by simpa [matchAtPos] using h1
        rw [findNameMatch, hm]
      | succ k =>
        have h0 : matchNameAt (c :: cs) = none := by
          simpa [matchAtPos] using h2 0 (Nat.succ_pos k)
        rw [findNameMatch, h0]
        show findNameMatch cs = some r
        apply ih.mpr
        refine ⟨k, by simpa [matchAtPos] using h1, ?_⟩
        intro j hj
        have := h2 (j + 1) (Nat.succ_lt_succ hj)
        simpa [matchAtPos] using this

/-- C1: the claim says a remove request whose name is owned by the registry
but matches no SceneStore node removes nothing, leaves the registry unchanged
and logs a not-found notice.  On the code, with registry `["a"]` and a single
scene node named `"b"`, the scan loop leaves the loop variable pointing at the
last scanned node, so the callback removes that unrelated node, removes `"a"`
from the registry and logs a removal notice instead. -/
theorem c1_remove_desync_removes_wrong_node :
    removeImportedNode ⟨["a"], [⟨some "b", 0⟩]⟩ "a" =
      (⟨[], []⟩, [logRemovedNode "a"]) ∧
    removeImportedNode ⟨["a"], [⟨some "b", 0⟩]⟩ "a" ≠
      (⟨["a"], [⟨some "b", 0⟩]⟩, [logNotFound "a"]) := by
  constructor
  · rfl
  · decide

/-- C2: the claim says a non-empty fragment with no `name "<id>"` pattern is
rejected with success=false.  On the code `re.search` returns `None` and
`.group()` raises `AttributeError`: the callback aborts with an exception
(modelled as `Except.error`) instead of returning a response.  The second
conjunct checks the claim's true half: extraction on text containing
`name "abc123"` yields exactly `abc123`. -/
theorem c2_no_pattern_crash_and_extraction :
    spawnNodeFromString ⟨[], []⟩ "Solid" [] = Except.error ⟨[], []⟩ ∧
    findNameMatch (String.toList "ab name \"abc123\" cd") =
      some (String.toList "abc123") := by
  exact ⟨rfl, by decide⟩

/-- C3 counterexample: with a converter that raises, the robot-description
spawn does not yield any success=false response — the exception escapes the
callback — refuting the claim that a conversion failure "yields a rejection
(success=false)". -/
theorem c3_counterexample :
    ¬ ∃ cb : CbResult,
        spawnUrdfRobot ⟨[], []⟩ robotR1 convFailAll [] = .ok cb ∧
        cb.success = false := by
  rintro ⟨cb, hcb, -⟩
  rw [show spawnUrdfRobot ⟨[], []⟩ robotR1 convFailAll [] =
      Except.error ⟨[], []⟩ from rfl] at hcb
  cases hcb

/-- C3 (amended): when the converter raises during conversion of an otherwise
valid request, the exception propagates uncaught out of the callback (no
success=false response is produced), and at that point neither the registry
nor the scene store has been mutated: the callback aborts with the state it
started from. -/
theorem c3_conv_failure_propagates (st : SupervisorState) (robot : UrdfRobot)
    (conv : ConvCall → Except Unit String) (ins : List SceneNode)
    (hname : robot.name ≠ "") (hnew : robot.name ∉ st.nodeList)
    (hfail : ∀ c, conv c = .error ())
    (hsrc : robot.urdfPath ≠ "" ∨ robot.robotDescription ≠ "") :
    spawnUrdfRobot st robot conv ins = .error st := by
  unfold spawnUrdfRobot
  rw [if_neg hname, if_neg hnew]
  by_cases hp : robot.urdfPath ≠ ""
  · rw [if_pos hp, hfail (fileConvCall robot)]
  · rw [if_neg hp]
    have hd : robot.robotDescription ≠ "" := hsrc.resolve_left hp
    rw [if_pos hd, hfail (contentConvCall robot)]

/-- C3 witness: the amended theorem applied at a concrete request. -/
theorem c3_witness :
    spawnUrdfRobot ⟨[], []⟩ robotR1 convFailAll [] = .error ⟨[], []⟩ :=
  c3_conv_failure_propagates ⟨[], []⟩ robotR1 convFailAll []
    (by decide) (by decide) (fun _ => rfl) (Or.inl (by decide))

/-- C6 counterexample: removing a name absent from the registry emits no log
line at all (the callback body is one `if` with no `else`), refuting the
claim that exactly one logged notice is emitted. -/
theorem c6_counterexample :
    ¬ (removeImportedNode ⟨["a"], []⟩ "x").2.length = 1 := by
  decide

/-- C6 (amended): removing a name not present in the registry is a no-op:
no exception, no registry change, no scene change, and no log is emitted. -/
theorem c6_remove_absent_noop (st : SupervisorState) (name : String)
    (h : name ∉ st.nodeList) : removeImportedNode st name = (st, []) := by
  unfold removeImportedNode
  rw [if_neg h]

/-- C6 witness: the amended theorem applied at a concrete state. -/
theorem c6_witness : removeImportedNode ⟨["a"], []⟩ "x" = (⟨["a"], []⟩, []) :=
  c6_remove_absent_noop ⟨["a"], []⟩ "x" (by decide)

/-- C4: across any sequence of spawn requests of either path, no two spawns
succeed with the same name; moreover, whenever the requested (robot path) or
extracted (raw-fragment path) name is already in the registry, the callback
returns success=false with the state untouched — in particular no registry
mutation, and for the raw-fragment path no scene mutation either. -/
theorem c4_spawn_name_uniqueness :
    (∀ st reqs, ((runReqs st reqs).filterMap id).Nodup) ∧
    (∀ st robot conv ins, robot.name ≠ "" → robot.name ∈ st.nodeList →
      spawnUrdfRobot st robot conv ins =
        .ok ⟨st, false, [logNameUsed robot.name], [], [], none⟩) ∧
    (∀ st data ins run, data ≠ "" → findNameMatch data.toList = some run →
      String.mk run ≠ "" → String.mk run ∈ st.nodeList →
      spawnNodeFromString st data ins =
        .ok ⟨st, false, [logDuplicateNode (String.mk run)], [], [], none⟩) := by
  refine ⟨runReqs_successes_nodup, ?_, ?_⟩
  · intro st robot conv ins hname hmem
    unfold spawnUrdfRobot
    rw [if_neg hname, if_pos hmem]
  · intro st data ins run hdata hmatch hne hmem
    simp only [spawnNodeFromString, hmatch]
    rw [if_neg hdata, if_neg hne, if_pos hmem]

/-- C4 witness: the duplicate-name rejection applied at a concrete state in
which the requested name is already registered. -/
theorem c4_witness :
    spawnUrdfRobot ⟨["r1"], []⟩ robotR1 convOkConst [] =
      .ok ⟨⟨["r1"], []⟩, false, [logNameUsed "r1"], [], [], none⟩ :=
  c4_spawn_name_uniqueness.2.1 ⟨["r1"], []⟩ robotR1 convOkConst []
    (by decide) (by decide)

/-- C5: a raw-fragment request that passes validation but whose post-insertion
scan finds no node carrying the extracted name rolls the provisional registry
entry back (the registry is exactly what it was, so it does not contain the
name), returns success=false, and does not retract the scene insertion (the
scene keeps the nodes the import materialised). -/
theorem c5_rollback_on_verification_failure (st : SupervisorState)
    (data : String) (ins : List SceneNode) (run : List Char)
    (hdata : data ≠ "") (hmatch : findNameMatch data.toList = some run)
    (hne : String.mk run ≠ "") (hnew : String.mk run ∉ st.nodeList)
    (hver : (st.sceneNodes ++ ins).any
      (fun n => nodeMatches n (String.mk run)) = false) :
    spawnNodeFromString st data ins =
      .ok ⟨⟨st.nodeList, st.sceneNodes ++ ins⟩, false,
           [logCouldNotImport (String.mk run)], [], [data], none⟩ := by
  have hroll := listRemoveFirst_append_self st.nodeList (String.mk run) hnew
  have hver' : ¬ ((st.sceneNodes ++ ins).any
      (fun n => nodeMatches n (String.mk run)) = true) := by
    rw [hver]
    exact Bool.false_ne_true
  simp only [spawnNodeFromString, hmatch]
  rw [if_neg hdata, if_neg hne, if_neg hnew, if_neg hver', hroll]

/-- C5 witness: a fragment naming `box1` whose import materialises nothing;
the registry is rolled back while the scene is left as it was. -/
theorem c5_witness :
    spawnNodeFromString ⟨[], [⟨some "floor", 0⟩]⟩ "Solid name \"box1\"" [] =
      .ok ⟨⟨[], [⟨some "floor", 0⟩]⟩, false, [logCouldNotImport "box1"], [],
           ["Solid name \"box1\""], none⟩ :=
  c5_rollback_on_verification_failure ⟨[], [⟨some "floor", 0⟩]⟩
    "Solid name \"box1\"" [] (String.toList "box1")
    (by decide) (by decide) (by decide) (by decide) (by decide)

/-- C7: a remove request whose name is registered and for which the scene scan
locates a first matching node (index `i`, all earlier nodes not matching —
nodes without a `name` field are skipped) removes exactly that node from the
scene and removes the name from the registry. -/
theorem c7_remove_found (st : SupervisorState) (name : String) (i : Nat)
    (hi : i < st.sceneNodes.length) (hmem : name ∈ st.nodeList)
    (hnodup : st.nodeList.Nodup)
    (hm : nodeMatches (st.sceneNodes.getD i ⟨none, 0⟩) name = true)
    (hf : ∀ j, j < i →
      nodeMatches (st.sceneNodes.getD j ⟨none, 0⟩) name = false) :
    removeImportedNode st name =
      (⟨listRemoveFirst st.nodeList name, st.sceneNodes.eraseIdx i⟩,
       [logRemovedNode name]) ∧
    name ∉ listRemoveFirst st.nodeList name := by
  have hscan := removeScanIdx_eq_first st.sceneNodes name i hi hm hf
  constructor
  · unfold removeImportedNode
    rw [if_pos hmem, hscan]
  · exact not_mem_listRemoveFirst _ _ hnodup

/-- C7 witness: scene `[unnamed, box]`, registry `["box"]`; removing `box`
erases exactly the matching node and clears the registry. -/
theorem c7_witness :
    removeImportedNode ⟨["box"], [⟨none, 0⟩, ⟨some "box", 1⟩]⟩ "box" =
      (⟨[], [⟨none, 0⟩]⟩, [logRemovedNode "box"]) ∧
    "box" ∉ ([] : List String) :=
  c7_remove_found ⟨["box"], [⟨none, 0⟩, ⟨some "box", 1⟩]⟩ "box" 1
    (by decide) (by decide) (by decide) (by decide) (by decide)

/-- C8: on a valid robot-description request the file-based conversion path is
taken whenever a file path is present, otherwise the content-based path; the
converter is invoked with the defaulted placement/shape options (packaged in
`fileConvCall` / `contentConvCall`); the returned fragment is the one string
passed to `importMFNodeFromString`; the name is recorded unconditionally —
for every possible import outcome `ins`, with no verification scan — and
success=true is returned.  The last four conjuncts spell out the defaults
used when the optional fields are missing. -/
theorem c8_spawn_urdf_valid (st : SupervisorState) (robot : UrdfRobot)
    (conv : ConvCall → Except Unit String) (ins : List SceneNode)
    (fragment : String)
    (hname : robot.name ≠ "") (hnew : robot.name ∉ st.nodeList) :
    (robot.urdfPath ≠ "" → conv (fileConvCall robot) = .ok fragment →
      spawnUrdfRobot st robot conv ins =
        .ok ⟨⟨st.nodeList ++ [robot.name], st.sceneNodes ++ ins⟩, true,
             [logImportedRobot robot.name], [fileConvCall robot], [fragment],
             some robot.name⟩) ∧
    (robot.urdfPath = "" → robot.robotDescription ≠ "" →
      conv (contentConvCall robot) = .ok fragment →
      spawnUrdfRobot st robot conv ins =
        .ok ⟨⟨st.nodeList ++ [robot.name], st.sceneNodes ++ ins⟩, true,
             [logImportedRobot robot.name], [contentConvCall robot],
             [fragment], some robot.name⟩) ∧
    (robot.translation = "" → defTranslation robot = "0 0 0") ∧
    (robot.rotation = "" → defRotation robot = "0 0 1 0") ∧
    (robot.normal = false → defNormal robot = false) ∧
    (robot.boxCollision = false → defBoxCollision robot = false) := by
  refine ⟨?_, ?_, ?_, ?_, ?_, ?_⟩
  · intro hp hconv
    unfold spawnUrdfRobot
    rw [if_neg hname, if_neg hnew, if_pos hp, hconv]
  · intro hp hd hconv
    unfold spawnUrdfRobot
    rw [if_neg hname, if_neg hnew, if_neg (not_not_intro hp), if_pos hd,
      hconv]
  · intro h
    simp [defTranslation, h]
  · intro h
    simp [defRotation, h]
  · intro h
    simp [defNormal, h]
  · intro h
    simp [defBoxCollision, h]

/-- C8 witness: the file path is taken, the name is recorded and success=true
even though the import materialised a node (here one node named `r1`). -/
theorem c8_witness :
    spawnUrdfRobot ⟨[], []⟩ robotR1 convOkConst [⟨some "r1", 3⟩] =
      .ok ⟨⟨["r1"], [⟨some "r1", 3⟩]⟩, true, [logImportedRobot "r1"],
           [fileConvCall robotR1], ["WBFRAG"], some "r1"⟩ :=
  (c8_spawn_urdf_valid ⟨[], []⟩ robotR1 convOkConst [⟨some "r1", 3⟩] "WBFRAG"
    (by decide) (by decide)).1 (by decide) rfl

/-- C9: after validation, the raw-fragment verification succeeds exactly when
some node of the current scene (pre-existing or just imported) carries the
extracted name — it never checks that the node came from this insertion; in
particular, when a node with that name already existed, the spawn returns
success=true and registers the name even though the import materialised
nothing at all (`ins = []`). -/
theorem c9_verification_ignores_insertion_origin (st : SupervisorState)
    (data : String) (run : List Char)
    (hdata : data ≠ "") (hmatch : findNameMatch data.toList = some run)
    (hne : String.mk run ≠ "") (hnew : String.mk run ∉ st.nodeList) :
    (∀ ins, ∃ cb, spawnNodeFromString st data ins = .ok cb ∧
      (cb.success = true ↔
        ∃ n ∈ st.sceneNodes ++ ins, nodeMatches n (String.mk run) = true)) ∧
    ((∃ n ∈ st.sceneNodes, nodeMatches n (String.mk run) = true) →
      spawnNodeFromString st data [] =
        .ok ⟨⟨st.nodeList ++ [String.mk run], st.sceneNodes ++ []⟩, true,
             [logImportedNode (String.mk run)], [], [data],
             some (String.mk run)⟩) := by
  have hbase : ∀ ins,
      (st.sceneNodes ++ ins).any (fun n => nodeMatches n (String.mk run)) =
        true →
      spawnNodeFromString st data ins =
        .ok ⟨⟨st.nodeList ++ [String.mk run], st.sceneNodes ++ ins⟩, true,
             [logImportedNode (String.mk run)], [], [data],
             some (String.mk run)⟩ := by
    intro ins hany
    simp only [spawnNodeFromString, hmatch]
    rw [if_neg hdata, if_neg hne, if_neg hnew, if_pos hany]
  constructor
  · intro ins
    cases hany : (st.sceneNodes ++ ins).any
        (fun n => nodeMatches n (String.mk run)) with
    | true =>
      refine ⟨_, hbase ins hany, ?_⟩
      constructor
      · intro _
        exact List.any_eq_true.mp hany
      · intro _
        rfl
    | false =>
      have hver' : ¬ ((st.sceneNodes ++ ins).any
          (fun n => nodeMatches n (String.mk run)) = true) := by
        rw [hany]
        exact Bool.false_ne_true
      have hroll :=
        listRemoveFirst_append_self st.nodeList (String.mk run) hnew
      refine ⟨⟨⟨st.nodeList, st.sceneNodes ++ ins⟩, false,
        [logCouldNotImport (String.mk run)], [], [data], none⟩, ?_, ?_⟩
      · simp only [spawnNodeFromString, hmatch]
        rw [if_neg hdata, if_neg hne, if_neg hnew, if_neg hver', hroll]
      · constructor
        · intro hfalse
          cases hfalse
        · intro hex
          exact absurd (List.any_eq_true.mpr hex) hver'
  · intro hex
    apply hbase []
    apply List.any_eq_true.mpr
    rcases hex with ⟨n, hn, hm⟩
    exact ⟨n, List.mem_append_left [] hn, hm⟩

/-- C9 witness: a node named `ghost1` already exists untracked in the scene;
spawning a fragment naming `ghost1` whose import silently fails still
succeeds and registers the name. -/
theorem c9_witness :
    spawnNodeFromString ⟨[], [⟨some "ghost1", 7⟩]⟩ "Solid name \"ghost1\"" [] =
      .ok ⟨⟨["ghost1"], [⟨some "ghost1", 7⟩]⟩, true,
           [logImportedNode "ghost1"], [], ["Solid name \"ghost1\""],
           some "ghost1"⟩ :=
  (c9_verification_ignores_insertion_origin ⟨[], [⟨some "ghost1", 7⟩]⟩
    "Solid name \"ghost1\"" (String.toList "ghost1")
    (by decide) (by decide) (by decide) (by decide)).2
    ⟨⟨some "ghost1", 7⟩, by decide, by decide⟩

/-- C10: name extraction returns the textually first substring matching
`name "[a-z0-9_]*"`, wherever it occurs; on a fragment whose first such
occurrence names a nested node (`inner_part`), that nested name — not the
top-level `outer_robot` — is the one extracted, validated, registered and
verified by the spawn. -/
theorem c10_extraction_is_leftmost :
    (∀ s r, findNameMatch s = some r ↔
      ∃ i, matchAtPos s i = some r ∧ ∀ j, j < i → matchAtPos s j = none) ∧
    findNameMatch (String.toList nestedFragment) =
      some (String.toList "inner_part") ∧
    spawnNodeFromString ⟨[], []⟩ nestedFragment [⟨some "inner_part", 4⟩] =
      .ok ⟨⟨["inner_part"], [⟨some "inner_part", 4⟩]⟩, true,
           [logImportedNode "inner_part"], [], [nestedFragment],
           some "inner_part"⟩ :=
  ⟨findNameMatch_iff_leftmost, by decide, rfl⟩
